import Mathlib

/-!
Shallow embedding of the tokenator command-line tool: catalog loading and
model-name resolution (src/models.rs), prompt handling (src/prompt.rs) and
token counting (src/token.rs), together with proofs of the specified
properties.  External effects (file system, JSON parsing, the interactive
chooser and the tokenizer backend) are passed in as explicit collaborator
functions; real-number similarity scores are modelled exactly over the
rationals.
-/

namespace Tokenator

/-- A catalog entry parsed from the models JSON file: a friendly model name
and the corresponding Hugging Face repository identifier (struct `Model`,
src/models.rs lines 11-15). -/
structure Model where
  name : String
  hf : String
deriving DecidableEq, Repr

/-- Lookup in the association-list model of `HashMap<String, String>`:
returns the value of the first (by the key-uniqueness invariant, only)
binding of the key. -/
def hmGet (m : List (String × String)) (k : String) : Option String :=
  match m with
  | [] => none
  | (key, value) :: rest => if key = k then some value else hmGet rest k

/-- Insertion in the association-list model of `HashMap<String, String>`:
replaces any existing binding of the key, as map keys are unique and a later
insert overwrites an earlier one. -/
def hmInsert (m : List (String × String)) (k v : String) : List (String × String) :=
  m.filter (fun p => decide (p.1 ≠ k)) ++ [(k, v)]

/-- The map built from the parsed catalog entries by the `collect` call of
`load_model_name_map` (src/models.rs line 36): entries are inserted in
order, so a later duplicate friendly name overwrites an earlier one. -/
def buildNameMap (models : List Model) : List (String × String) :=
  models.foldl (fun acc mo => hmInsert acc mo.name mo.hf) []

/-- Reference semantics for duplicate catalog entries: the repository
identifier carried by the last entry bearing the given friendly name. -/
def findLast (models : List Model) (k : String) : Option String :=
  models.foldl (fun acc mo => if mo.name = k then some mo.hf else acc) none

/-- Index of the last position `p` in `[1, i]` with `xs[p-1] = c`, or `0`
when there is none: the row and column bookkeeping (the `elems` map and the
`db` variable) of the Damerau-Levenshtein dynamic programme of the strsim
crate, expressed as a function of the inputs. -/
def lastIdx (xs : List Char) (c : Char) : Nat → Nat
  | 0 => 0
  | i + 1 => if xs.getD i ' ' = c then i + 1 else lastIdx xs c i

/-- Cell `(i, j)` of the Damerau-Levenshtein dynamic programme of the strsim
crate (`generic_damerau_levenshtein`, the distance backend of the
`normalized_damerau_levenshtein` call in src/models.rs line 55): the edit
distance between the first `i` characters of `a` and the first `j`
characters of `b`, where insertions, deletions, substitutions and
(unrestricted) adjacent transpositions all cost 1.  A transposition with no
previous matching row or column reads the sentinel value
`a.length + b.length` of the bordered matrix.  The `fuel` argument makes the
recursion structural; every recursive call decreases `i + j`, so
`fuel = i + j + 1` always suffices and the fuel-exhausted clause is
unreachable from `damerau_levenshtein`. -/
def dlCell (a b : List Char) : Nat → Nat → Nat → Nat
  | 0, _, _ => 0
  | _ + 1, i, 0 => i
  | _ + 1, 0, j + 1 => j + 1
  | fuel + 1, i + 1, j + 1 =>
    let ca := a.getD i ' '
    let cb := b.getD j ' '
    let substitutionCost := dlCell a b fuel i j + (if ca = cb then 0 else 1)
    let insertionCost := dlCell a b fuel i (j + 1) + 1
    let deletionCost := dlCell a b fuel (i + 1) j + 1
    let k := lastIdx a cb i
    let db := lastIdx b ca j
    let transpositionCost :=
      (if k = 0 ∨ db = 0 then a.length + b.length
       else dlCell a b fuel (k - 1) (db - 1)) + (i - k) + (j - db) + 1
    min substitutionCost (min insertionCost (min deletionCost transpositionCost))

/-- Damerau-Levenshtein distance between two character sequences, as
computed by the strsim crate. -/
def damerau_levenshtein (a b : List Char) : Nat :=
  dlCell a b (a.length + b.length + 1) a.length b.length

/-- Normalised Damerau-Levenshtein similarity (the strsim crate function
called in src/models.rs lines 55-56): `1` when both strings are empty,
otherwise `1 - distance / max(length a, length b)` over the character
counts.  Real arithmetic is modelled exactly over `ℚ`. -/
def normalized_damerau_levenshtein (a b : String) : ℚ :=
  if a.data = [] ∧ b.data = [] then 1
  else 1 - (damerau_levenshtein a.data b.data : ℚ) /
    ((max a.data.length b.data.length : ℕ) : ℚ)

/-- Similarity score of one registry entry against the requested name: the
quantity the closure passed to `max_by` computes for each side of the
comparison (src/models.rs lines 55-56). -/
def suggestionScore (input_name : String) (p : String × String) : ℚ :=
  normalized_damerau_levenshtein p.1 input_name

/-- The comparator `model_name_suggestion` passes to `max_by`
(src/models.rs lines 54-60): compare two registry entries by the normalised
similarity of their keys to the requested name.  The scores are rationals
in `[0, 1]`, so the comparison is total and the `expect` on `partial_cmp`
cannot panic. -/
def suggestionCmp (input_name : String) (p q : String × String) : Ordering :=
  compare (suggestionScore input_name p) (suggestionScore input_name q)

/-- One step of the reduction performed by the Rust `Iterator::max_by`
(`core::cmp::max_by`): keep the accumulator only when it compares strictly
greater, so with ties the later element wins. -/
def maxByStep (cmp : α → α → Ordering) (m x : α) : α :=
  if cmp m x = Ordering.gt then m else x

/-- The Rust `Iterator::max_by`: `reduce` (fold from the first element) with
`core::cmp::max_by`; `none` exactly on an empty iterator. -/
def max_by (cmp : α → α → Ordering) : List α → Option α
  | [] => none
  | h :: t => some (t.foldl (maxByStep cmp) h)

/-- `model_name_suggestion` (src/models.rs lines 47-63): the registry entry
whose key is most similar to the input name, as selected by `max_by` over
the iteration order of the map (here, the list order), mapped to its key. -/
def model_name_suggestion (model_name_map : List (String × String))
    (input_name : String) : Option String :=
  (max_by (suggestionCmp input_name) model_name_map).map Prod.fst

/-- Failures of `load_model_name_map` (src/models.rs lines 26-31): the file
read error or the JSON parse error, each wrapped with its context
message. -/
inductive CatalogError
  | readError (message : String)
  | parseError (message : String)
deriving DecidableEq, Repr

/-- Successful result of `load_model_name_map`: the name map together with
whether the empty-catalog warning was logged (src/models.rs lines 32-34). -/
structure LoadOutcome where
  modelNameMap : List (String × String)
  emptyWarning : Bool
deriving DecidableEq, Repr

/-- `load_model_name_map` (src/models.rs lines 23-39).  Reading the file and
serde JSON parsing are external effects: they enter as the outcome of the
read and as the parse function. -/
def load_model_name_map (readResult : Except String String)
    (parseModels : String → Except String (List Model)) :
    Except CatalogError LoadOutcome :=
  match readResult with
  | .error e => .error (.readError e)
  | .ok data =>
    match parseModels data with
    | .error e => .error (.parseError e)
    | .ok models => .ok ⟨buildNameMap models, models.isEmpty⟩

/-- Failures of `get_repo_id` (src/models.rs lines 92-119): a propagated
catalog error, the empty-catalog bail, a failure of the interactive chooser,
or the no-matching-model bail carrying the requested name and the optional
suggestion shown in the message. -/
inductive GetRepoIdError
  | catalog (e : CatalogError)
  | emptyCatalog
  | chooser (message : String)
  | noMatch (modelName : String) (suggestion : Option String)
deriving DecidableEq, Repr

/-- `get_model_name` (src/models.rs lines 69-82): interactive selection over
the sorted list of friendly names, with the `Select` prompt passed in as the
`chooser` collaborator. -/
def get_model_name (chooser : List String → Except String String)
    (model_name_map : List (String × String)) : Except String String :=
  chooser ((model_name_map.map Prod.fst).mergeSort (fun a b => decide (a ≤ b)))

/-- `get_repo_id` (src/models.rs lines 92-119).  The models-file path is
replaced by the outcome of reading it and by the serde parse function; the
interactive prompt is the `chooser` collaborator. -/
def get_repo_id (chooser : List String → Except String String)
    (model_name : Option String)
    (readResult : Except String String)
    (parseModels : String → Except String (List Model)) :
    Except GetRepoIdError String :=
  match load_model_name_map readResult parseModels with
  | .error e => .error (.catalog e)
  | .ok out =>
    if out.modelNameMap.isEmpty then .error .emptyCatalog
    else
      match (match model_name with
        | some value => Except.ok value
        | none => get_model_name chooser out.modelNameMap) with
      | .error e => .error (.chooser e)
      | .ok name =>
        match hmGet out.modelNameMap name with
        | some value => .ok value
        | none => .error (.noMatch name (model_name_suggestion out.modelNameMap name))

/-- `count_tokens` (src/token.rs lines 34-43): encode the prompt with
`add_special_tokens = true` and return the length of the resulting sequence
of token ids.  The tokenizer handle is the opaque external `encode_fast`
capability; `none` models an encoding failure. -/
def count_tokens (encode : String → Bool → Option (List Nat))
    (prompt : String) : Option Nat :=
  (encode prompt true).map List.length

/-- A tokenizer, in the sense of the opaque `encode` capability, that
accepts every input and, like any tokenizer whose template inserts special
tokens, produces one token id for the empty string. -/
def specialTokenEncode : String → Bool → Option (List Nat) :=
  fun _ _ => some [1]

/-- The Unicode White_Space code points: the Rust `char::is_whitespace`,
which `str::trim` strips from both ends. -/
def rustIsWhitespace (c : Char) : Bool :=
  c.toNat = 0x9 || c.toNat = 0xA || c.toNat = 0xB || c.toNat = 0xC ||
  c.toNat = 0xD || c.toNat = 0x20 || c.toNat = 0x85 || c.toNat = 0xA0 ||
  c.toNat = 0x1680 || (0x2000 ≤ c.toNat && c.toNat ≤ 0x200A) ||
  c.toNat = 0x2028 || c.toNat = 0x2029 || c.toNat = 0x202F ||
  c.toNat = 0x205F || c.toNat = 0x3000

/-- The Rust `str::trim`: strip leading and trailing whitespace characters
(as a character list). -/
def rustTrim (s : String) : List Char :=
  ((s.data.dropWhile rustIsWhitespace).reverse.dropWhile rustIsWhitespace).reverse

/-- Failures of `get_prompt` (src/prompt.rs lines 15-38): a file read error,
the missing-prompt-source error when neither input is supplied, the
missing-prompt-value bail for a prompt that trims to nothing, and the
too-large bail carrying the byte length. -/
inductive PromptError
  | fileError (message : String)
  | missingPromptSource
  | missingPromptValue
  | promptTooLarge (byteLength : Nat)
deriving DecidableEq, Repr

/-- Validation applied by `get_prompt` to the selected prompt text
(src/prompt.rs lines 30-37): reject a prompt whose trim is empty, then a
prompt of more than 20048000 bytes (`String::len` counts bytes). -/
def validatePrompt (prompt : String) : Except PromptError String :=
  if rustTrim prompt = [] then .error .missingPromptValue
  else if prompt.utf8ByteSize > 20048000 then
    .error (.promptTooLarge prompt.utf8ByteSize)
  else .ok prompt

/-- `get_prompt` (src/prompt.rs lines 15-38), with `read_file` passed in as
the file-system collaborator over an abstract path type: a supplied file
wins over a supplied inline prompt, and the selected text is validated. -/
def get_prompt {π : Type} (readFile : π → Except String String)
    (file : Option π) (prompt : Option String) : Except PromptError String :=
  match file with
  | some value =>
    match readFile value with
    | .error e => .error (.fileError e)
    | .ok content => validatePrompt content
  | none =>
    match prompt with
    | some value => validatePrompt value
    | none => .error .missingPromptSource

/-- A list that is not nil has `isEmpty` false. -/
theorem isEmpty_false_of_ne_nil {α : Type} {l : List α} (h : l ≠ []) :
    l.isEmpty = false := by
  cases l with
  | nil => exact absurd rfl h
  | cons x t => rfl

/-- Inserting into the map model never yields the empty map. -/
theorem hmInsert_ne_nil (m : List (String × String)) (k v : String) :
    hmInsert m k v ≠ [] := by
  simp [hmInsert]

/-- Folding catalog entries into a non-empty accumulator map keeps it
non-empty. -/
theorem foldl_hmInsert_ne_nil (models : List Model) :
    ∀ acc : List (String × String), acc ≠ [] →
      models.foldl (fun acc mo => hmInsert acc mo.name mo.hf) acc ≠ [] := by
  induction models with
  | nil => intro acc h; simpa using h
  | cons mo rest ih =>
    intro acc _
    exact ih (hmInsert acc mo.name mo.hf) (hmInsert_ne_nil acc mo.name mo.hf)

/-- A non-empty catalog builds a non-empty name map. -/
theorem buildNameMap_ne_nil (models : List Model) (h : models ≠ []) :
    buildNameMap models ≠ [] := by
  match models with
  | [] => exact absurd rfl h
  | mo :: rest =>
    exact foldl_hmInsert_ne_nil rest (hmInsert [] mo.name mo.hf)
      (hmInsert_ne_nil [] mo.name mo.hf)

/-- Lookup after insertion: the inserted key maps to the inserted value, and
every other key is unaffected. -/
theorem hmGet_hmInsert (m : List (String × String)) (k v q : String) :
    hmGet (hmInsert m k v) q = if k = q then some v else hmGet m q := by
  induction m with
  | nil => simp [hmInsert, hmGet]
  | cons p rest ih =>
    by_cases hpk : p.1 = k
    · have h1 : hmInsert (p :: rest) k v = hmInsert rest k v := by
        simp [hmInsert, hpk]
      rw [h1, ih]
      by_cases hkq : k = q
      · simp [hkq]
      · have hpq : ¬ p.1 = q := by rw [hpk]; exact hkq
        simp [hkq, hmGet, hpq]
    · have h1 : hmInsert (p :: rest) k v = p :: hmInsert rest k v := by
        simp [hmInsert, hpk]
      rw [h1]
      by_cases hpq : p.1 = q
      · have hkq : ¬ k = q := by rw [← hpq]; exact fun h => hpk h.symm
        cases p with
        | mk p1 p2 => simp_all [hmGet]
      · cases p with
        | mk p1 p2 => simp_all [hmGet]

/-- Lookup in the folded map is the fold of the last-wins update over the
lookup in the accumulator. -/
theorem hmGet_foldl_hmInsert (models : List Model) :
    ∀ (acc : List (String × String)) (k : String),
      hmGet (models.foldl (fun acc mo => hmInsert acc mo.name mo.hf) acc) k =
        models.foldl (fun r mo => if mo.name = k then some mo.hf else r)
          (hmGet acc k) := by
  induction models with
  | nil => intro acc k; rfl
  | cons mo rest ih =>
    intro acc k
    have h1 : (mo :: rest).foldl (fun acc mo => hmInsert acc mo.name mo.hf) acc =
        rest.foldl (fun acc mo => hmInsert acc mo.name mo.hf)
          (hmInsert acc mo.name mo.hf) := rfl
    rw [h1, ih, hmGet_hmInsert]
    rfl

/-- Lookup in the built name map returns the identifier of the last catalog
entry bearing the name: duplicate friendly names silently overwrite. -/
theorem hmGet_buildNameMap (models : List Model) (k : String) :
    hmGet (buildNameMap models) k = findLast models k := by
  have h := hmGet_foldl_hmInsert models [] k
  simpa [buildNameMap, findLast, hmGet] using h

/-- Folding the last-wins update over entries none of which bear the key
leaves the accumulator unchanged. -/
theorem findLast_foldl_const (l : List Model) (k : String) :
    ∀ r : Option String, (∀ mo ∈ l, mo.name ≠ k) →
      l.foldl (fun r mo => if mo.name = k then some mo.hf else r) r = r := by
  induction l with
  | nil => intro r _; rfl
  | cons mo rest ih =>
    intro r h
    have h1 : mo.name ≠ k := h mo (List.mem_cons_self mo rest)
    have h2 : (mo :: rest).foldl (fun r mo => if mo.name = k then some mo.hf else r) r =
        rest.foldl (fun r mo => if mo.name = k then some mo.hf else r) r := by
      simp [h1]
    rw [h2]
    exact ih r (fun x hx => h x (List.mem_cons_of_mem mo hx))

/-- With unique friendly names, the last-wins lookup of a member entry is
that entry. -/
theorem findLast_of_nodup (models : List Model) (mo : Model)
    (hnd : (models.map Model.name).Nodup) (hmem : mo ∈ models) :
    findLast models mo.name = some mo.hf := by
  induction models with
  | nil => cases hmem
  | cons x rest ih =>
    rw [List.map_cons, List.nodup_cons] at hnd
    rcases List.mem_cons.mp hmem with h | h
    · subst h
      have hnotin : ∀ y ∈ rest, y.name ≠ mo.name := by
        intro y hy hcontra
        exact hnd.1 (hcontra ▸ List.mem_map_of_mem Model.name hy)
      have h1 : findLast (mo :: rest) mo.name =
          rest.foldl (fun r z => if z.name = mo.name then some z.hf else r)
            (some mo.hf) := by
        simp [findLast]
      rw [h1]
      exact findLast_foldl_const rest mo.name (some mo.hf) hnotin
    · have hxname : x.name ≠ mo.name := by
        intro hcontra
        exact hnd.1 (hcontra ▸ List.mem_map_of_mem Model.name h)
      have h1 : findLast (x :: rest) mo.name = findLast rest mo.name := by
        simp [findLast, hxname]
      rw [h1]
      exact ih hnd.2 h

/-- One reduction step of `max_by` yields one of its two arguments. -/
theorem maxByStep_eq_or {α : Type} (cmp : α → α → Ordering) (m x : α) :
    maxByStep cmp m x = m ∨ maxByStep cmp m x = x := by
  unfold maxByStep
  split
  · exact Or.inl rfl
  · exact Or.inr rfl

/-- The fold underlying `max_by` returns its starting element or a member of
the folded list. -/
theorem foldl_maxByStep_mem {α : Type} (cmp : α → α → Ordering) (t : List α) :
    ∀ m : α, t.foldl (maxByStep cmp) m = m ∨ t.foldl (maxByStep cmp) m ∈ t := by
  induction t with
  | nil => intro m; exact Or.inl rfl
  | cons x t ih =>
    intro m
    have h1 : (x :: t).foldl (maxByStep cmp) m =
        t.foldl (maxByStep cmp) (maxByStep cmp m x) := rfl
    rw [h1]
    rcases ih (maxByStep cmp m x) with h | h
    · rcases maxByStep_eq_or cmp m x with h2 | h2
      · exact Or.inl (h.trans h2)
      · right
        rw [h, h2]
        exact List.mem_cons_self x t
    · exact Or.inr (List.mem_cons_of_mem x h)

/-- When the comparator compares a score, the fold underlying `max_by`
returns an element whose score dominates the start and every member. -/
theorem foldl_maxByStep_score {α : Type} (score : α → ℚ) (t : List α) :
    ∀ m : α,
      score m ≤
        score (t.foldl (maxByStep (fun p q => compare (score p) (score q))) m) ∧
      ∀ x ∈ t, score x ≤
        score (t.foldl (maxByStep (fun p q => compare (score p) (score q))) m) := by
  induction t with
  | nil =>
    intro m
    exact ⟨le_refl _, by intro x hx; cases hx⟩
  | cons x t ih =>
    intro m
    have hstep : score m ≤ score (maxByStep (fun p q => compare (score p) (score q)) m x) ∧
        score x ≤ score (maxByStep (fun p q => compare (score p) (score q)) m x) := by
      unfold maxByStep
      by_cases hc : compare (score m) (score x) = Ordering.gt
      · rw [if_pos hc]
        exact ⟨le_refl _, le_of_lt (compare_gt_iff_gt.mp hc)⟩
      · rw [if_neg hc]
        have hnlt : ¬ score x < score m := fun hlt => hc (compare_gt_iff_gt.mpr hlt)
        exact ⟨le_of_not_lt hnlt, le_refl _⟩
    have h1 : (x :: t).foldl (maxByStep (fun p q => compare (score p) (score q))) m =
        t.foldl (maxByStep (fun p q => compare (score p) (score q)))
          (maxByStep (fun p q => compare (score p) (score q)) m x) := rfl
    rw [h1]
    rcases ih (maxByStep (fun p q => compare (score p) (score q)) m x) with ⟨ha, hb⟩
    refine ⟨le_trans hstep.1 ha, ?_⟩
    intro y hy
    rcases List.mem_cons.mp hy with h | h
    · rw [h]
      exact le_trans hstep.2 ha
    · exact hb y h

/-- `max_by` with a score comparator returns a member attaining the maximum
score. -/
theorem max_by_score_spec {α : Type} (score : α → ℚ) (l : List α) (s : α)
    (h : max_by (fun p q => compare (score p) (score q)) l = some s) :
    s ∈ l ∧ ∀ x ∈ l, score x ≤ score s := by
  match l with
  | [] => cases h
  | h0 :: t =>
    unfold max_by at h
    have hs : t.foldl (maxByStep (fun p q => compare (score p) (score q))) h0 = s :=
      Option.some_inj.mp h
    constructor
    · rw [← hs]
      rcases foldl_maxByStep_mem (fun p q => compare (score p) (score q)) t h0 with h1 | h1
      · rw [h1]
        exact List.mem_cons_self h0 t
      · exact List.mem_cons_of_mem h0 h1
    · intro x hx
      rw [← hs]
      rcases foldl_maxByStep_score score t h0 with ⟨ha, hb⟩
      rcases List.mem_cons.mp hx with h1 | h1
      · rw [h1]
        exact ha
      · exact hb x h1

/-- The suggestion, when produced, is a friendly name present in the map and
its similarity to the requested name is maximal over the map. -/
theorem model_name_suggestion_spec (m : List (String × String)) (input s : String)
    (h : model_name_suggestion m input = some s) :
    s ∈ m.map Prod.fst ∧ ∀ p ∈ m,
      normalized_damerau_levenshtein p.1 input ≤
        normalized_damerau_levenshtein s input := by
  unfold model_name_suggestion at h
  rcases Option.map_eq_some'.mp h with ⟨pair, hpair, hfst⟩
  have hspec := max_by_score_spec (suggestionScore input) m pair hpair
  constructor
  · exact hfst ▸ List.mem_map_of_mem Prod.fst hspec.1
  · intro p hp
    have := hspec.2 p hp
    rw [← hfst]
    exact this

/-- A non-empty map always yields a suggestion. -/
theorem model_name_suggestion_isSome (m : List (String × String)) (input : String)
    (h : m ≠ []) : ∃ s, model_name_suggestion m input = some s := by
  match m with
  | [] => exact absurd rfl h
  | p :: rest => exact ⟨_, rfl⟩

/-- Every cell of the dynamic programme is bounded by the larger of its
coordinates: the diagonal (substitution) path alone already costs at most
one per step. -/
theorem dlCell_le_max (a b : List Char) :
    ∀ fuel i j, dlCell a b fuel i j ≤ max i j := by
  intro fuel
  induction fuel with
  | zero =>
    intro i j
    simp [dlCell]
  | succ f ih =>
    intro i j
    cases i with
    | zero =>
      cases j with
      | zero => simp [dlCell]
      | succ j => simp [dlCell]
    | succ i =>
      cases j with
      | zero => simp [dlCell]
      | succ j =>
        have h1 : dlCell a b (f + 1) (i + 1) (j + 1) ≤
            dlCell a b f i j + (if a.getD i ' ' = b.getD j ' ' then 0 else 1) := by
          simp only [dlCell]
          exact min_le_left _ _
        have h2 : (if a.getD i ' ' = b.getD j ' ' then 0 else 1) ≤ 1 := by
          split
          · decide
          · decide
        have h3 := Nat.add_le_add (ih i j) h2
        have h4 : max (i + 1) (j + 1) = max i j + 1 := Nat.succ_max_succ i j
        omega

/-- The Damerau-Levenshtein distance is at most the length of the longer
input. -/
theorem damerau_levenshtein_le_max (a b : List Char) :
    damerau_levenshtein a b ≤ max a.length b.length :=
  dlCell_le_max a b (a.length + b.length + 1) a.length b.length

/-- A string all of whose characters are whitespace trims to nothing. -/
theorem rustTrim_eq_nil_of_all_ws (s : String)
    (h : ∀ c ∈ s.data, rustIsWhitespace c = true) : rustTrim s = [] := by
  unfold rustTrim
  have h1 : s.data.dropWhile rustIsWhitespace = [] := by
    rw [List.dropWhile_eq_nil_iff]
    exact h
  rw [h1]
  rfl

/-- A prompt all of whose characters are whitespace is rejected with the
missing-prompt-value error. -/
theorem validatePrompt_ws (s : String)
    (h : ∀ c ∈ s.data, rustIsWhitespace c = true) :
    validatePrompt s = .error .missingPromptValue := by
  unfold validatePrompt
  rw [if_pos (rustTrim_eq_nil_of_all_ws s h)]

/-- A prompt accepted by validation is returned unchanged, trims to a
non-empty text and is within the byte-size bound. -/
theorem validatePrompt_ok (s t : String) (h : validatePrompt s = .ok t) :
    t = s ∧ rustTrim t ≠ [] ∧ t.utf8ByteSize ≤ 20048000 := by
  unfold validatePrompt at h
  split at h
  · cases h
  · split at h
    · cases h
    · rename_i h1 h2
      injection h with h3
      subst h3
      exact ⟨rfl, h1, by omega⟩

/-- Every successful result of `get_prompt` passed through validation. -/
theorem get_prompt_ok {π : Type} (readFile : π → Except String String)
    (file : Option π) (inline : Option String) (t : String)
    (h : get_prompt readFile file inline = .ok t) :
    ∃ s, validatePrompt s = .ok t := by
  unfold get_prompt at h
  split at h
  · split at h
    · cases h
    · exact ⟨_, h⟩
  · split at h
    · exact ⟨_, h⟩
    · cases h

/-- C9: for every pair of strings the normalised Damerau-Levenshtein
similarity lies in the closed interval from 0 to 1 (the score is an exact
rational, so the comparison inside `model_name_suggestion` is total and the
`expect` on `partial_cmp` is unreachable). -/
theorem normalized_damerau_levenshtein_bounds :
    ∀ a b : String, 0 ≤ normalized_damerau_levenshtein a b ∧
      normalized_damerau_levenshtein a b ≤ 1 := by
  intro a b
  unfold normalized_damerau_levenshtein
  split
  · norm_num
  · rename_i h
    have hn : 0 < max a.data.length b.data.length := by
      by_cases ha : a.data = []
      · have hb : b.data ≠ [] := fun hb => h ⟨ha, hb⟩
        have := List.length_pos.mpr hb
        omega
      · have := List.length_pos.mpr ha
        omega
    have hd : damerau_levenshtein a.data b.data ≤ max a.data.length b.data.length :=
      damerau_levenshtein_le_max a.data b.data
    have hq0 : (0 : ℚ) ≤ (damerau_levenshtein a.data b.data : ℚ) /
        ((max a.data.length b.data.length : ℕ) : ℚ) := by positivity
    have hq1 : (damerau_levenshtein a.data b.data : ℚ) /
        ((max a.data.length b.data.length : ℕ) : ℚ) ≤ 1 := by
      rw [div_le_one (by exact_mod_cast hn)]
      exact_mod_cast hd
    constructor
    · linarith
    · linarith

/-- C1: for a registry built from at least one well-formed entry with
unique friendly names, `get_repo_id` with a requested name present in the
registry succeeds and returns exactly that entry's repository identifier. -/
theorem get_repo_id_returns_matching_entry
    (chooser : List String → Except String String)
    (parseModels : String → Except String (List Model))
    (data : String) (models : List Model) (entry : Model)
    (hparse : parseModels data = .ok models)
    (hnodup : (models.map Model.name).Nodup)
    (hmem : entry ∈ models) :
    get_repo_id chooser (some entry.name) (.ok data) parseModels = .ok entry.hf := by
  have hget : hmGet (buildNameMap models) entry.name = some entry.hf := by
    rw [hmGet_buildNameMap]
    exact findLast_of_nodup models entry hnodup hmem
  have hne : buildNameMap models ≠ [] :=
    buildNameMap_ne_nil models (by rintro rfl; cases hmem)
  simp [get_repo_id, load_model_name_map, hparse, isEmpty_false_of_ne_nil hne, hget]

/-- Witness for C1 at the round-trip scenario of the specification. -/
theorem get_repo_id_returns_matching_entry_witness :
    get_repo_id (fun _ => .error "noninteractive") (some "example:latest")
      (.ok "catalog-text")
      (fun _ => .ok [⟨"example:latest", "example/Example-1-M"⟩]) =
      .ok "example/Example-1-M" :=
  get_repo_id_returns_matching_entry (fun _ => .error "noninteractive")
    (fun _ => .ok [⟨"example:latest", "example/Example-1-M"⟩]) "catalog-text"
    [⟨"example:latest", "example/Example-1-M"⟩]
    ⟨"example:latest", "example/Example-1-M"⟩ rfl (by simp) (by simp)

/-- C2: when `model_name_suggestion` produces a suggestion, it is a name in
the registry whose normalised Damerau-Levenshtein similarity to the
requested name is maximal; in particular, for the registry containing only
`example-model` and the requested name `example-modal`, the suggestion is
`example-model`. -/
theorem model_name_suggestion_maximizes_similarity :
    (∀ (m : List (String × String)) (input s : String),
      model_name_suggestion m input = some s →
        s ∈ m.map Prod.fst ∧
        ∀ p ∈ m, normalized_damerau_levenshtein p.1 input ≤
          normalized_damerau_levenshtein s input) ∧
    model_name_suggestion [("example-model", "example/Example-Model")]
      "example-modal" = some "example-model" :=
  ⟨model_name_suggestion_spec, rfl⟩

/-- Witness for C2 at the scenario of the specification. -/
theorem model_name_suggestion_maximizes_similarity_witness :
    "example-model" ∈ ([("example-model", "example/Example-Model")].map Prod.fst) ∧
    ∀ p ∈ [("example-model", "example/Example-Model")],
      normalized_damerau_levenshtein p.1 "example-modal" ≤
        normalized_damerau_levenshtein "example-model" "example-modal" :=
  model_name_suggestion_maximizes_similarity.1
    [("example-model", "example/Example-Model")] "example-modal" "example-model" rfl

/-- C3: for every non-empty registry and requested name absent from it,
`get_repo_id` fails with the no-matching-model error carrying the requested
name together with a suggestion, the suggestion is a name present in the
registry, and the no-suggestion branch is not taken. -/
theorem get_repo_id_no_match_carries_suggestion
    (chooser : List String → Except String String)
    (parseModels : String → Except String (List Model))
    (data : String) (models : List Model) (name : String)
    (hparse : parseModels data = .ok models)
    (hne : models ≠ [])
    (hmiss : hmGet (buildNameMap models) name = none) :
    ∃ s, get_repo_id chooser (some name) (.ok data) parseModels =
        .error (.noMatch name (some s)) ∧
      s ∈ (buildNameMap models).map Prod.fst := by
  have hbne := buildNameMap_ne_nil models hne
  obtain ⟨s, hs⟩ := model_name_suggestion_isSome (buildNameMap models) name hbne
  refine ⟨s, ?_, (model_name_suggestion_spec (buildNameMap models) name s hs).1⟩
  simp [get_repo_id, load_model_name_map, hparse, isEmpty_false_of_ne_nil hbne,
    hmiss, hs]

/-- Witness for C3 at the scenario of the specification. -/
theorem get_repo_id_no_match_carries_suggestion_witness :
    ∃ s, get_repo_id (fun _ => .error "noninteractive") (some "example-modal")
        (.ok "catalog-text")
        (fun _ => .ok [⟨"example-model", "example/Example-Model"⟩]) =
        .error (.noMatch "example-modal" (some s)) ∧
      s ∈ (buildNameMap [⟨"example-model", "example/Example-Model"⟩]).map Prod.fst :=
  get_repo_id_no_match_carries_suggestion (fun _ => .error "noninteractive")
    (fun _ => .ok [⟨"example-model", "example/Example-Model"⟩]) "catalog-text"
    [⟨"example-model", "example/Example-Model"⟩] "example-modal" rfl
    (by simp) (by decide)

/-- C4: resolving against an empty registry always fails with the
empty-catalog error, whatever the requested name (present as some name or
not supplied) and whatever the interactive chooser would answer: the check
precedes both the lookup and the interactive selection. -/
theorem get_repo_id_empty_catalog
    (chooser : List String → Except String String)
    (model_name : Option String)
    (parseModels : String → Except String (List Model))
    (data : String)
    (hparse : parseModels data = .ok []) :
    get_repo_id chooser model_name (.ok data) parseModels = .error .emptyCatalog := by
  simp [get_repo_id, load_model_name_map, hparse, buildNameMap, List.isEmpty]

/-- Witness for C4: even with no requested name and a chooser that would
answer, the empty catalog is rejected first. -/
theorem get_repo_id_empty_catalog_witness :
    get_repo_id (fun _ => .ok "example-model") none (.ok "catalog-text")
      (fun _ => .ok []) = .error .emptyCatalog :=
  get_repo_id_empty_catalog (fun _ => .ok "example-model") none
    (fun _ => .ok []) "catalog-text" rfl

/-- C6: a catalog list with at least one well-formed entry loads to a
non-empty registry, even when entries share a friendly name; a duplicated
name is silently overwritten, the lookup returning the identifier of the
last entry bearing it. -/
theorem load_model_name_map_nonempty_last_wins
    (parseModels : String → Except String (List Model))
    (data : String) (models : List Model)
    (hparse : parseModels data = .ok models)
    (hne : models ≠ []) :
    load_model_name_map (.ok data) parseModels =
        .ok ⟨buildNameMap models, models.isEmpty⟩ ∧
      buildNameMap models ≠ [] ∧
      ∀ k, hmGet (buildNameMap models) k = findLast models k := by
  refine ⟨?_, buildNameMap_ne_nil models hne, fun k => hmGet_buildNameMap models k⟩
  simp [load_model_name_map, hparse]

/-- Witness for C6 on a catalog with a duplicated friendly name: the load
succeeds with a non-empty registry and the later identifier wins. -/
theorem load_model_name_map_nonempty_last_wins_witness :
    (load_model_name_map (.ok "catalog-text")
        (fun _ => .ok [⟨"example:latest", "first/Repo"⟩,
          ⟨"example:latest", "second/Repo"⟩]) =
      .ok ⟨buildNameMap [⟨"example:latest", "first/Repo"⟩,
          ⟨"example:latest", "second/Repo"⟩],
        [(⟨"example:latest", "first/Repo"⟩ : Model),
          ⟨"example:latest", "second/Repo"⟩].isEmpty⟩ ∧
      buildNameMap [⟨"example:latest", "first/Repo"⟩,
        ⟨"example:latest", "second/Repo"⟩] ≠ [] ∧
      ∀ k, hmGet (buildNameMap [⟨"example:latest", "first/Repo"⟩,
          ⟨"example:latest", "second/Repo"⟩]) k =
        findLast [⟨"example:latest", "first/Repo"⟩,
          ⟨"example:latest", "second/Repo"⟩] k) ∧
    findLast [⟨"example:latest", "first/Repo"⟩,
      ⟨"example:latest", "second/Repo"⟩] "example:latest" = some "second/Repo" :=
  ⟨load_model_name_map_nonempty_last_wins
      (fun _ => .ok [⟨"example:latest", "first/Repo"⟩,
        ⟨"example:latest", "second/Repo"⟩]) "catalog-text"
      [⟨"example:latest", "first/Repo"⟩, ⟨"example:latest", "second/Repo"⟩]
      rfl (by simp), rfl⟩

/-- C7: a structurally valid catalog with zero entries loads successfully
to an empty registry with the non-fatal warning emitted, not an error. -/
theorem load_model_name_map_empty_catalog_warns
    (parseModels : String → Except String (List Model))
    (data : String)
    (hparse : parseModels data = .ok []) :
    load_model_name_map (.ok data) parseModels = .ok ⟨[], true⟩ := by
  simp [load_model_name_map, hparse, buildNameMap, List.isEmpty]

/-- Witness for C7 at the empty-catalog scenario. -/
theorem load_model_name_map_empty_catalog_warns_witness :
    load_model_name_map (.ok "empty-catalog") (fun _ => .ok []) = .ok ⟨[], true⟩ :=
  load_model_name_map_empty_catalog_warns (fun _ => .ok []) "empty-catalog" rfl

/-- C5 counterexample: a tokenizer that accepts the empty string but, as
`count_tokens` requests `add_special_tokens = true`, encodes it to one
special token id; `count_tokens` then returns 1, not 0, so acceptance of
empty input alone does not give a zero count. -/
theorem count_tokens_empty_counterexample :
    (specialTokenEncode "" true).isSome = true ∧
      count_tokens specialTokenEncode "" ≠ some 0 := by
  constructor
  · rfl
  · intro h
    simp [count_tokens, specialTokenEncode] at h

/-- C5 amended: `count_tokens` returns the length of the encoding, so on
the empty string it returns 0 exactly when the tokenizer encodes the empty
string to an empty id sequence (for instance when no special tokens are
inserted); and it fails exactly when the encode step fails, never because
of the length of its input text. -/
theorem count_tokens_counts_encoding
    (encode : String → Bool → Option (List Nat)) :
    (encode "" true = some [] → count_tokens encode "" = some 0) ∧
    ∀ prompt, (count_tokens encode prompt).isSome = (encode prompt true).isSome := by
  constructor
  · intro h
    simp [count_tokens, h]
  · intro prompt
    unfold count_tokens
    cases encode prompt true with
    | none => rfl
    | some l => rfl

/-- Witness for the amended C5: a tokenizer that encodes the empty string
to no ids yields a zero count, and the success of `count_tokens` coincides
with the success of the encode step on a concrete prompt. -/
theorem count_tokens_counts_encoding_witness :
    count_tokens (fun _ _ => some ([] : List Nat)) "" = some 0 ∧
      (count_tokens (fun _ _ => some ([] : List Nat)) "Why is the sky blue?").isSome =
        ((fun (_ : String) (_ : Bool) => some ([] : List Nat))
          "Why is the sky blue?" true).isSome :=
  ⟨(count_tokens_counts_encoding (fun _ _ => some ([] : List Nat))).1 rfl,
    (count_tokens_counts_encoding (fun _ _ => some ([] : List Nat))).2
      "Why is the sky blue?"⟩

/-- C8: when both a prompt file and an inline prompt string are supplied,
the file content is the prompt that is used (subject to the usual
validation) and the inline string is ignored: the result coincides with the
result of supplying the file alone. -/
theorem get_prompt_file_precedence {π : Type}
    (readFile : π → Except String String) (p : π) (inline : Option String)
    (content : String) (hread : readFile p = .ok content) :
    get_prompt readFile (some p) inline = validatePrompt content ∧
      get_prompt readFile (some p) inline = get_prompt readFile (some p) none := by
  constructor
  · simp [get_prompt, hread]
  · simp [get_prompt, hread]

/-- Witness for C8 at the scenario of the repository tests: the file text
wins over a different inline prompt. -/
theorem get_prompt_file_precedence_witness :
    get_prompt (fun _ : Unit => .ok "Why is the sky blue?") (some ())
      (some "Why is the sea blue?") = .ok "Why is the sky blue?" := by
  have h := get_prompt_file_precedence (fun _ : Unit => .ok "Why is the sky blue?")
    () (some "Why is the sea blue?") "Why is the sky blue?" rfl
  rw [h.1]
  rfl

/-- C10: `get_prompt` rejects a prompt that is entirely whitespace with the
missing-prompt-value error (on the inline path and on the file path alike),
rejects a prompt of more than 20048000 bytes, and every prompt it returns
trims to a non-empty text and is within that byte-size bound. -/
theorem get_prompt_validation {π : Type}
    (readFile : π → Except String String) (p : π) (file : Option π)
    (inline : Option String) (s t : String) :
    ((∀ c ∈ s.data, rustIsWhitespace c = true) →
        get_prompt readFile none (some s) = .error .missingPromptValue) ∧
    ((∀ c ∈ s.data, rustIsWhitespace c = true) → readFile p = .ok s →
        get_prompt readFile (some p) inline = .error .missingPromptValue) ∧
    (s.utf8ByteSize > 20048000 →
        ∃ e, get_prompt readFile none (some s) = .error e) ∧
    (get_prompt readFile file inline = .ok t →
        rustTrim t ≠ [] ∧ t.utf8ByteSize ≤ 20048000) := by
  refine ⟨?_, ?_, ?_, ?_⟩
  · intro hws
    exact validatePrompt_ws s hws
  · intro hws hr
    have h1 : get_prompt readFile (some p) inline = validatePrompt s := by
      simp [get_prompt, hr]
    rw [h1]
    exact validatePrompt_ws s hws
  · intro hlen
    show ∃ e, validatePrompt s = .error e
    unfold validatePrompt
    by_cases htrim : rustTrim s = []
    · exact ⟨PromptError.missingPromptValue, by rw [if_pos htrim]⟩
    · exact ⟨PromptError.promptTooLarge s.utf8ByteSize,
        by rw [if_neg htrim, if_pos hlen]⟩
  · intro h
    obtain ⟨s0, hv⟩ := get_prompt_ok readFile file inline t h
    exact (validatePrompt_ok s0 t hv).2

/-- Witness for C10: a whitespace-only inline prompt is rejected with the
missing-prompt-value error, and a concrete accepted prompt trims to a
non-empty text within the byte-size bound. -/
theorem get_prompt_validation_witness :
    get_prompt (fun _ : Unit => .ok "file-text") none (some " \t ") =
        .error .missingPromptValue ∧
      (rustTrim "Why is the sky blue?" ≠ [] ∧
        "Why is the sky blue?".utf8ByteSize ≤ 20048000) :=
  ⟨(get_prompt_validation (fun _ : Unit => .ok "file-text") () none
      (some " \t ") " \t " "unused").1 (by decide),
    (get_prompt_validation (fun _ : Unit => .ok "file-text") () none
      (some "Why is the sky blue?") "unused" "Why is the sky blue?").2.2.2 rfl⟩

/-- Sanity check of the distance backend: one adjacent transposition costs
one. -/
example : damerau_levenshtein "ab".data "ba".data = 1 := by decide

/-- Sanity check of the distance backend: the unrestricted variant, which
permits edits between the transposed characters. -/
example : damerau_levenshtein "ca".data "abc".data = 2 := by decide

/-- Sanity check of the distance backend: boundary row. -/
example : damerau_levenshtein "".data "abc".data = 3 := by decide

/-- Sanity check of the normalisation: two empty strings score one. -/
example : normalized_damerau_levenshtein "" "" = 1 := by
  norm_num [normalized_damerau_levenshtein]

end Tokenator
